import Mathlib

/-!
Verification of the data-cleaning and aggregation core of an
exploratory-data-analysis toolkit over tabular e-commerce session data.

The development shallowly embeds the pipeline operations
(`DataTransform.convert_columns`, `DataFrameTransform.impute_missing`,
`OutlierHandler.remove_outliers`, `DataSkewTransformer.fix_skew`) and the
aggregation queries (`BusinessAnalysis.weekend_sales_analysis`,
`BusinessAnalysis.regional_revenue_analysis`).  A dataset is a list of named,
typed columns; each column is a list of cells; a missing value (NaN) is the
explicit cell `Cell.na`.  Numeric values are modelled as exact rationals.
-/

set_option allowUnsafeReducibility true

attribute [semireducible] Rat.mul Rat.add Rat.sub Rat.inv

namespace EDA

/-- A single cell of a tabular dataset.  `na` models a missing value (NaN). -/
inductive Cell where
  | num (q : ℚ)
  | str (s : String)
  | bool (b : Bool)
  | na
deriving DecidableEq, Repr

/-- Declared column dtype: numeric (float), boolean, nominal string, or
categorical with a fixed label list and an ordered flag. -/
inductive DType where
  | numeric
  | boolean
  | nominal
  | cat (labels : List String) (ordered : Bool)
deriving DecidableEq, Repr

/-- A named, typed column of cells. -/
structure Column where
  name : String
  dtype : DType
  cells : List Cell
deriving DecidableEq, Repr

/-- A dataset: an ordered list of columns (rows positionally aligned). -/
abbrev DataFrame := List Column

/-- Column lookup by name (`df[name]`); `none` models a KeyError. -/
def getCol (df : DataFrame) (n : String) : Option Column :=
  df.find? (fun c => c.name == n)

/-- Row count of a dataset (length of its first column). -/
def nrows (df : DataFrame) : Nat :=
  match df with
  | [] => 0
  | c :: _ => c.cells.length

/-- The list of column names, in order. -/
def colNames (df : DataFrame) : List String := df.map (fun c => c.name)

/-- Non-missing numeric values of a column, in order (pandas `skipna`). -/
def numCellsQ (cells : List Cell) : List ℚ :=
  cells.filterMap (fun c => match c with | Cell.num q => some q | _ => none)

/-- Ascending sort of rationals. -/
def sortQ (xs : List ℚ) : List ℚ := List.insertionSort (fun a b => a ≤ b) xs

/-- Linear-interpolation quantile on an ascending-sorted list, as pandas
`Series.quantile` computes it: with `n` values, the quantile `q` sits at
fractional position `h = q*(n-1)`; the result interpolates between the
values at positions `⌊h⌋` and `⌊h⌋+1`.  `none` models the NaN returned for
an empty (all-missing) column. -/
def quantileSorted (q : ℚ) (xs : List ℚ) : Option ℚ :=
  match xs with
  | [] => none
  | _ :: _ =>
    let n := xs.length
    let h : ℚ := q * ((n : ℚ) - 1)
    let i : Nat := h.floor.toNat
    let lo := xs.getD i 0
    let hi := xs.getD (i + 1) lo
    some (lo + (h - (h.floor : ℚ)) * (hi - lo))

/-- `series.quantile(q)`: quantile over the non-missing values of a column. -/
def quantile (q : ℚ) (cells : List Cell) : Option ℚ :=
  quantileSorted q (sortQ (numCellsQ cells))

/-- Mean of a list of rationals; `none` for the empty list (pandas NaN). -/
def meanQ (xs : List ℚ) : Option ℚ :=
  match xs with
  | [] => none
  | _ :: _ => some (xs.sum / (xs.length : ℚ))

/-! ### TypeNormalizer: `DataTransform.convert_columns` -/

/-- The fixed ordered month labels used by `convert_columns`. -/
def monthLabels : List String :=
  ["Jan", "Feb", "Mar", "Apr", "May", "Jun",
   "Jul", "Aug", "Sep", "Oct", "Nov", "Dec"]

/-- `pd.Categorical(values, categories=labels)` on one cell: a value equal to
one of the labels is kept, every other value (including a missing one)
becomes NaN.  No error is ever raised for an out-of-set value. -/
def toCatCell (labels : List String) (c : Cell) : Cell :=
  match c with
  | Cell.str s => if s ∈ labels then Cell.str s else Cell.na
  | _ => Cell.na

/-- Python truthiness, as `astype(bool)` applies it elementwise: a nonzero
number, a nonempty string, and the boolean `true` are truthy; float NaN is
truthy in Python, hence `na` coerces to `true`. -/
def truthy (c : Cell) : Bool :=
  match c with
  | Cell.num q => q != 0
  | Cell.str s => s != ""
  | Cell.bool b => b
  | Cell.na => true

/-- Per-column action of `convert_columns`: `month` becomes an ordered
categorical over `monthLabels`; `weekend` and `revenue` become boolean via
truthy coercion; every other column is untouched. -/
def convertCol (c : Column) : Column :=
  if c.name = "month" then
    { c with dtype := DType.cat monthLabels true,
             cells := c.cells.map (toCatCell monthLabels) }
  else if c.name = "weekend" ∨ c.name = "revenue" then
    { c with dtype := DType.boolean,
             cells := c.cells.map (fun x => Cell.bool (truthy x)) }
  else c

/-- `DataTransform.convert_columns`.  Reading a missing column raises a
KeyError in the source, modelled by `none`; otherwise the three columns are
rewritten as in `convertCol`. -/
def convert_columns (df : DataFrame) : Option DataFrame :=
  match getCol df "month", getCol df "weekend", getCol df "revenue" with
  | some _, some _, some _ => some (df.map convertCol)
  | _, _, _ => none

/-! ### NullImputer: `DataFrameTransform.impute_missing` -/

/-- `series.fillna(v)`: replace every missing cell with `v`; when `v` is
`none` (the statistic of an all-missing column is NaN, and `fillna(NaN)`
changes nothing) the cells are unchanged. -/
def fillCells (v : Option ℚ) (cells : List Cell) : List Cell :=
  match v with
  | none => cells
  | some q => cells.map (fun c => match c with | Cell.na => Cell.num q | c => c)

/-- Per-column action of `impute_missing`: only numeric columns are touched;
`median` fills missing cells with the column's median (the 50th percentile,
linearly interpolated), `mean` with the column's mean, and any other
strategy string falls through both branches and does nothing. -/
def imputeCol (strategy : String) (c : Column) : Column :=
  if c.dtype = DType.numeric then
    if strategy = "median" then
      { c with cells := fillCells (quantile (1/2) c.cells) c.cells }
    else if strategy = "mean" then
      { c with cells := fillCells (meanQ (numCellsQ c.cells)) c.cells }
    else c
  else c

/-- `DataFrameTransform.impute_missing`. -/
def impute_missing (df : DataFrame) (strategy : String) : DataFrame :=
  df.map (imputeCol strategy)

/-! ### SkewCorrector: `DataSkewTransformer.fix_skew` -/

/-- Decides `abs(series.skew()) > threshold` over exact rationals.  pandas
computes the adjusted Fisher-Pearson skewness
`G1 = n*sqrt(n-1)/(n-2) * m3 / m2^1.5` over the non-missing values, where
`m2` and `m3` are the sums of squared and cubed deviations from the mean;
with fewer than 3 values the result is NaN (so the comparison is false),
and with `m2 = 0` the result is defined to be 0.  Since the square root is
irrational the comparison is decided in cleared form: for a threshold
`t ≥ 0` and `m2 > 0`, `|G1| > t  ↔  n^2*(n-1)*m3^2 > t^2*(n-2)^2*m2^3`
(both sides of the original comparison are squared, which is faithful
because `|G1| ≥ 0`), while for `t < 0` the comparison `|G1| > t` is true
outright. -/
def skewExceeds (threshold : ℚ) (xs : List ℚ) : Bool :=
  let n := xs.length
  if n < 3 then false
  else
    let μ : ℚ := xs.sum / (n : ℚ)
    let m2 : ℚ := (xs.map (fun x => (x - μ) ^ 2)).sum
    let m3 : ℚ := (xs.map (fun x => (x - μ) ^ 3)).sum
    if m2 = 0 then decide (0 > threshold)
    else if threshold < 0 then true
    else decide ((n : ℚ) ^ 2 * ((n : ℚ) - 1) * m3 ^ 2
                   > threshold ^ 2 * ((n : ℚ) - 2) ^ 2 * m2 ^ 3)

/-- Per-column action of `fix_skew`: a numeric column whose absolute
skewness exceeds the threshold has `np.log1p` applied elementwise to its
non-missing values (NaN stays NaN); every other column is unchanged.  The
transcendental `log1p` itself is an arbitrary parameter `log1p : ℚ → ℚ`:
the control flow and the elementwise application are what is verified. -/
def skewCol (log1p : ℚ → ℚ) (threshold : ℚ) (c : Column) : Column :=
  if c.dtype = DType.numeric then
    if skewExceeds threshold (numCellsQ c.cells) then
      { c with cells := c.cells.map (fun cell =>
          match cell with
          | Cell.num q => Cell.num (log1p q)
          | x => x) }
    else c
  else c

/-- `DataSkewTransformer.fix_skew`: scans exactly the numeric columns
(`select_dtypes(include=['number'])` excludes boolean and categorical
columns) and transforms those whose absolute skewness exceeds the
threshold. -/
def fix_skew (log1p : ℚ → ℚ) (df : DataFrame) (threshold : ℚ) : DataFrame :=
  df.map (skewCol log1p threshold)

/-! ### OutlierFilter: `OutlierHandler.remove_outliers` -/

/-- One cell's survival under the row filter
`~((x < lo) | (x > hi))`: a numeric cell survives iff it is not strictly
outside the bounds; a missing cell survives because both NaN comparisons
are false in pandas. -/
def keepCell (lo hi : ℚ) (c : Cell) : Bool :=
  match c with
  | Cell.num q => !(decide (q < lo) || decide (q > hi))
  | _ => true

/-- The boolean row mask for one column: Q1 and Q3 are the 25th and 75th
percentiles of the column's current non-missing values, and a row survives
iff its cell is within `[Q1 - 1.5*IQR, Q3 + 1.5*IQR]` or missing.  When the
column has no numeric values both quantiles are NaN, every comparison is
false, and every row survives. -/
def colMask (cells : List Cell) : List Bool :=
  match quantile (1/4) cells, quantile (3/4) cells with
  | some q1, some q3 =>
    let iqr := q3 - q1
    cells.map (keepCell (q1 - 3/2 * iqr) (q3 + 3/2 * iqr))
  | _, _ => cells.map (fun _ => true)

/-- Boolean-mask row selection on one column's cells. -/
def maskCells (mask : List Bool) (cells : List Cell) : List Cell :=
  ((mask.zip cells).filter (fun p => p.1)).map (fun p => p.2)

/-- `df[mask]`: apply one row mask to every column. -/
def filterRows (mask : List Bool) (df : DataFrame) : DataFrame :=
  df.map (fun c => { c with cells := maskCells mask c.cells })

/-- One iteration of the `remove_outliers` loop: look the column up (a
missing column is a KeyError, modelled by `none`), build its mask from the
rows remaining at this point, and filter every column by it. -/
def outlierStep (df : DataFrame) (colName : String) : Option DataFrame :=
  match getCol df colName with
  | none => none
  | some c => some (filterRows (colMask c.cells) df)

/-- `OutlierHandler.remove_outliers`: sequential left-to-right filtering,
recomputing the bounds from the already-shrunk dataset at each column. -/
def remove_outliers (df : DataFrame) (columns : List String) : Option DataFrame :=
  match columns with
  | [] => some df
  | c :: cs =>
    match outlierStep df c with
    | none => none
    | some df2 => remove_outliers df2 cs

/-! ### Aggregator: `BusinessAnalysis` -/

/-- Numeric view of a cell for aggregation (pandas treats booleans as 0/1;
missing and string cells are skipped by `skipna` aggregation). -/
def cellAsNum (c : Cell) : Option ℚ :=
  match c with
  | Cell.num q => some q
  | Cell.bool b => some (if b then 1 else 0)
  | _ => none

/-- `series.sum()`: sum of the non-missing values (empty sum is 0). -/
def sumCells (cells : List Cell) : ℚ := (cells.filterMap cellAsNum).sum

/-- `series.mean()`: mean of the non-missing values, NaN (`none`) if none. -/
def meanCells (cells : List Cell) : Option ℚ := meanQ (cells.filterMap cellAsNum)

/-- The aligned (key, value) pairs of two columns; `none` if either column
is missing (KeyError). -/
def pairsOf (df : DataFrame) (kcol vcol : String) : Option (List (Cell × Cell)) :=
  match getCol df kcol, getCol df vcol with
  | some k, some v => some (k.cells.zip v.cells)
  | _, _ => none

/-- Lexicographic code-point comparison of character lists (Python compares
strings by code points, which is the order pandas group keys are sorted
in). -/
def leChars : List Char → List Char → Bool
  | [], _ => true
  | _ :: _, [] => false
  | a :: as, b :: bs =>
    if a.toNat < b.toNat then true
    else if b.toNat < a.toNat then false
    else leChars as bs

/-- `a ≤ b` on strings, by code points. -/
def strLe (a b : String) : Bool := leChars a.data b.data

/-- Ascending lexicographic sort of strings. -/
def sortStrs (xs : List String) : List String :=
  List.insertionSort (fun a b => strLe a b = true) xs

/-- The string group keys occurring in a pair list (groupby drops rows whose
key is missing). -/
def strKeys (pairs : List (Cell × Cell)) : List String :=
  pairs.filterMap (fun p => match p.1 with | Cell.str s => some s | _ => none)

/-- `groupby(key)[val].sum()`: one entry per distinct key, keys in ascending
order (pandas groupby sorts group keys), each mapped to the sum of its
group's values. -/
def groupSums (pairs : List (Cell × Cell)) : List (String × ℚ) :=
  (sortStrs (strKeys pairs).dedup).map (fun k =>
    (k, sumCells ((pairs.filter (fun p => p.1 == Cell.str k)).map (fun p => p.2))))

/-- The guarantee of `sort_values(ascending=False)` with the default
`kind='quicksort'`: the output is a permutation of the input that is weakly
descending in the value.  pandas documents quicksort as not stable, so the
relative order of entries with equal values is unspecified; any output
satisfying this contract is an admissible behaviour of the program. -/
def IsSortValuesDescResult (input output : List (String × ℚ)) : Prop :=
  output.Perm input ∧ List.Sorted (fun a b => b.2 ≤ a.2) output

/-- One deterministic refinement of `sort_values(ascending=False)` used to
compute the embedding's result: an insertion sort by descending value.  It
satisfies `IsSortValuesDescResult`; program-level guarantees about
`regional_revenue_analysis` are stated only through that contract, never
through this particular refinement's tie behaviour. -/
def sortByValDesc (l : List (String × ℚ)) : List (String × ℚ) :=
  List.insertionSort (fun a b => b.2 ≤ a.2) l

/-- `BusinessAnalysis.regional_revenue_analysis`:
`df.groupby('region')['revenue'].sum().sort_values(ascending=False)`. -/
def regional_revenue_analysis (df : DataFrame) : Option (List (String × ℚ)) :=
  (pairsOf df "region" "revenue").map (fun ps => sortByValDesc (groupSums ps))

/-- The boolean group keys occurring in a pair list. -/
def boolKeys (pairs : List (Cell × Cell)) : List Bool :=
  pairs.filterMap (fun p => match p.1 with | Cell.bool b => some b | _ => none)

/-- `BusinessAnalysis.weekend_sales_analysis`:
`df.groupby('weekend', observed=False)['revenue'].mean()`.  The `weekend`
column is a plain boolean column (not categorical), so only the boolean
values actually present form groups, in ascending order (false before
true); `observed=False` has no effect on a non-categorical key. -/
def weekend_sales_analysis (df : DataFrame) : Option (List (Bool × Option ℚ)) :=
  (pairsOf df "weekend" "revenue").map (fun ps =>
    let ks := (boolKeys ps).dedup
    let orderedKeys :=
      (if false ∈ ks then [false] else []) ++ (if true ∈ ks then [true] else [])
    orderedKeys.map (fun k =>
      (k, meanCells ((ps.filter (fun p => p.1 == Cell.bool k)).map (fun p => p.2)))))

/-! ### Helper lemmas -/

/-- Claim-side predicate: a cell's value is strictly below `lo` or strictly
above `hi` (a missing cell is neither). -/
def outsideBounds (lo hi : ℚ) (c : Cell) : Bool :=
  match c with
  | Cell.num q => decide (q < lo) || decide (q > hi)
  | _ => false

theorem keepCell_eq_not_outside (lo hi : ℚ) (c : Cell) :
    keepCell lo hi c = !(outsideBounds lo hi c) := by
  cases c <;> rfl

theorem getCol_map (f : Column → Column) (hf : ∀ c, (f c).name = c.name)
    (df : DataFrame) (n : String) :
    getCol (df.map f) n = (getCol df n).map f := by
  induction df with
  | nil => rfl
  | cons c cs ih =>
    unfold getCol at ih ⊢
    cases h : (c.name == n) with
    | true =>
      rw [List.map_cons, List.find?_cons_of_pos, List.find?_cons_of_pos] <;>
        simp [hf c, h]
    | false =>
      rw [List.map_cons, List.find?_cons_of_neg, List.find?_cons_of_neg]
      · exact ih
      · simp [h]
      · simp [hf c, h]

theorem getCol_name (df : DataFrame) (n : String) (c : Column)
    (h : getCol df n = some c) : c.name = n := by
  have := List.find?_some h
  simpa using this

theorem maskCells_length_le (mask : List Bool) (cells : List Cell) :
    (maskCells mask cells).length ≤ cells.length := by
  calc (maskCells mask cells).length
      = ((mask.zip cells).filter (fun p => p.1)).length := List.length_map _ _
    _ ≤ (mask.zip cells).length := List.length_filter_le _ _
    _ ≤ cells.length := by rw [List.length_zip]; exact min_le_right _ _

theorem maskCells_map_pred (p : Cell → Bool) (cells : List Cell) :
    maskCells (cells.map p) cells = cells.filter p := by
  induction cells with
  | nil => rfl
  | cons c cs ih =>
    cases h : p c <;>
      simp [maskCells, List.filter, h] at ih ⊢ <;> exact ih

theorem nrows_filterRows_le (mask : List Bool) (df : DataFrame) :
    nrows (filterRows mask df) ≤ nrows df := by
  cases df with
  | nil => exact Nat.le_refl _
  | cons c cs => exact maskCells_length_le mask c.cells

theorem colNames_filterRows (mask : List Bool) (df : DataFrame) :
    colNames (filterRows mask df) = colNames df := by
  simp [colNames, filterRows, List.map_map]

theorem outlierStep_names (df df' : DataFrame) (c : String)
    (h : outlierStep df c = some df') : colNames df' = colNames df := by
  unfold outlierStep at h
  cases hg : getCol df c with
  | none => rw [hg] at h; exact absurd h (by simp)
  | some col =>
    rw [hg] at h
    cases h
    exact colNames_filterRows _ _

theorem outlierStep_nrows_le (df df' : DataFrame) (c : String)
    (h : outlierStep df c = some df') : nrows df' ≤ nrows df := by
  unfold outlierStep at h
  cases hg : getCol df c with
  | none => rw [hg] at h; exact absurd h (by simp)
  | some col =>
    rw [hg] at h
    cases h
    exact nrows_filterRows_le _ _

theorem remove_outliers_names_nrows (cols : List String) :
    ∀ df df' : DataFrame, remove_outliers df cols = some df' →
      colNames df' = colNames df ∧ nrows df' ≤ nrows df := by
  induction cols with
  | nil =>
    intro df df' h
    unfold remove_outliers at h
    cases h
    exact ⟨rfl, Nat.le_refl _⟩
  | cons c cs ih =>
    intro df df' h
    unfold remove_outliers at h
    cases hs : outlierStep df c with
    | none => rw [hs] at h; exact absurd h (by simp)
    | some df2 =>
      rw [hs] at h
      have h2 := ih df2 df' h
      exact ⟨h2.1.trans (outlierStep_names df df2 c hs),
             h2.2.trans (outlierStep_nrows_le df df2 c hs)⟩

theorem sorted_sortByValDesc (l : List (String × ℚ)) :
    List.Sorted (fun a b => b.2 ≤ a.2) (sortByValDesc l) := by
  haveI : IsTotal (String × ℚ) (fun a b => b.2 ≤ a.2) := ⟨fun a b => le_total b.2 a.2⟩
  haveI : IsTrans (String × ℚ) (fun a b => b.2 ≤ a.2) := ⟨fun a b c h1 h2 => le_trans h2 h1⟩
  exact List.sorted_insertionSort _ l

theorem perm_sortByValDesc (l : List (String × ℚ)) : (sortByValDesc l).Perm l :=
  List.perm_insertionSort _ l

theorem getCol_filterRows (m : List Bool) (df : DataFrame) (n : String) :
    getCol (filterRows m df) n
      = (getCol df n).map (fun c => { c with cells := maskCells m c.cells }) := by
  unfold filterRows
  exact getCol_map (fun c => { c with cells := maskCells m c.cells }) (fun _ => rfl) df n

/-! ### Example datasets used by witnesses and counterexamples -/

/-- A single numeric column `[1,2,3,4,5,100]` (the spec's synthetic outlier
example). -/
def exOutDF : DataFrame :=
  [⟨"x", DType.numeric,
    [Cell.num 1, Cell.num 2, Cell.num 3, Cell.num 4, Cell.num 5, Cell.num 100]⟩]

/-- `exOutDF` after one IQR pass: `100` is outside `[-1.5, 8.5]`. -/
def exOutDF1 : DataFrame :=
  [⟨"x", DType.numeric,
    [Cell.num 1, Cell.num 2, Cell.num 3, Cell.num 4, Cell.num 5]⟩]

/-- A single numeric column `[0,0,0,0,100,1000]` on which repeated IQR
filtering keeps shrinking the dataset. -/
def exIdemDF : DataFrame :=
  [⟨"y", DType.numeric,
    [Cell.num 0, Cell.num 0, Cell.num 0, Cell.num 0, Cell.num 100, Cell.num 1000]⟩]

/-- `exIdemDF` after one pass: Q1 = 0, Q3 = 75, bounds `[-112.5, 187.5]`,
so only `1000` is removed. -/
def exIdemDF1 : DataFrame :=
  [⟨"y", DType.numeric,
    [Cell.num 0, Cell.num 0, Cell.num 0, Cell.num 0, Cell.num 100]⟩]

/-- `exIdemDF1` after a second pass: now Q1 = Q3 = 0, bounds `[0, 0]`, so
`100` is removed as well. -/
def exIdemDF2 : DataFrame :=
  [⟨"y", DType.numeric,
    [Cell.num 0, Cell.num 0, Cell.num 0, Cell.num 0]⟩]

/-! ### C1 -/

/-- C1: `remove_outliers` processes the given columns sequentially; for each
column it computes Q1 and Q3 over the rows remaining at that point, sets
IQR = Q3 - Q1, and a step removes exactly the rows whose value in that
column is strictly below Q1 - 1.5*IQR or strictly above Q3 + 1.5*IQR; the
empty column list returns the dataset unchanged, and the result never has
more rows than the input, with the column names unchanged. -/
theorem remove_outliers_spec (df df' : DataFrame) (cols : List String)
    (h : remove_outliers df cols = some df') :
    remove_outliers df ([] : List String) = some df ∧
    colNames df' = colNames df ∧
    nrows df' ≤ nrows df ∧
    (∀ c cs, remove_outliers df (c :: cs)
        = (outlierStep df c).bind (fun d => remove_outliers d cs)) ∧
    (∀ c col q1 q3, getCol df c = some col →
       quantile (1/4) col.cells = some q1 → quantile (3/4) col.cells = some q3 →
       outlierStep df c = some (filterRows (colMask col.cells) df) ∧
       getCol (filterRows (colMask col.cells) df) c
         = some { col with cells := col.cells.filter (fun cell =>
             !(outsideBounds (q1 - 3/2 * (q3 - q1)) (q3 + 3/2 * (q3 - q1)) cell)) }) := by
  have hnn := remove_outliers_names_nrows cols df df' h
  refine ⟨rfl, hnn.1, hnn.2, ?_, ?_⟩
  · intro c cs
    cases hs : outlierStep df c <;> simp [remove_outliers, hs]
  · intro c col q1 q3 hg h1 h3
    have hmask : colMask col.cells
        = col.cells.map (keepCell (q1 - 3/2 * (q3 - q1)) (q3 + 3/2 * (q3 - q1))) := by
      unfold colMask
      rw [h1, h3]
    refine ⟨by simp [outlierStep, hg], ?_⟩
    rw [getCol_filterRows, hg, Option.map_some']
    have hfun : keepCell (q1 - 3/2 * (q3 - q1)) (q3 + 3/2 * (q3 - q1))
        = fun cell => !(outsideBounds (q1 - 3/2 * (q3 - q1)) (q3 + 3/2 * (q3 - q1)) cell) :=
      funext (keepCell_eq_not_outside _ _)
    rw [hmask, maskCells_map_pred, hfun]

/-- C1 witness: the theorem applied to the `[1,2,3,4,5,100]` column. -/
theorem remove_outliers_spec_witness :
    remove_outliers exOutDF ([] : List String) = some exOutDF ∧
    colNames exOutDF1 = colNames exOutDF ∧ nrows exOutDF1 ≤ nrows exOutDF :=
  ⟨(remove_outliers_spec exOutDF exOutDF1 ["x"] (by decide)).1,
   (remove_outliers_spec exOutDF exOutDF1 ["x"] (by decide)).2.1,
   (remove_outliers_spec exOutDF exOutDF1 ["x"] (by decide)).2.2.1⟩

/-! ### C8 -/

/-- C8 counterexample: a second `remove_outliers` pass with the same column
set is not always a no-op.  On `[0,0,0,0,100,1000]` the first pass removes
`1000` (bounds `[-112.5, 187.5]`); the shrunken column has Q1 = Q3 = 0, so
the second pass removes `100` as well: the second application removes one
additional row, refuting the claimed idempotence. -/
theorem remove_outliers_not_idempotent_cex :
    remove_outliers exIdemDF ["y"] = some exIdemDF1 ∧
    remove_outliers exIdemDF1 ["y"] = some exIdemDF2 ∧
    nrows exIdemDF = 6 ∧ nrows exIdemDF1 = 5 ∧ nrows exIdemDF2 = 4 := by
  decide

/-- C8 amended: `remove_outliers` is not idempotent in general, but on the
single column `[1,2,3,4,5,100]` the first pass removes exactly the value
`100` and a second pass with the same column set removes nothing. -/
theorem remove_outliers_example_idempotent :
    remove_outliers exOutDF ["x"] = some exOutDF1 ∧
    remove_outliers exOutDF1 ["x"] = some exOutDF1 ∧
    getCol exOutDF1 "x" = some ⟨"x", DType.numeric,
      [Cell.num 1, Cell.num 2, Cell.num 3, Cell.num 4, Cell.num 5]⟩ ∧
    nrows exOutDF = 6 ∧ nrows exOutDF1 = 5 := by
  decide

/-! ### C2 -/

/-- The spec's highly skewed column `[1,1,1,1,1,1,1,1,1,100]`. -/
def skewedCol : Column :=
  ⟨"s1", DType.numeric,
   [Cell.num 1, Cell.num 1, Cell.num 1, Cell.num 1, Cell.num 1,
    Cell.num 1, Cell.num 1, Cell.num 1, Cell.num 1, Cell.num 100]⟩

/-- The spec's near-symmetric column `[1,2,3,4,5]`. -/
def symCol : Column :=
  ⟨"s2", DType.numeric, [Cell.num 1, Cell.num 2, Cell.num 3, Cell.num 4, Cell.num 5]⟩

/-- C2: `fix_skew` scans exactly the numeric columns; a numeric column is
transformed elementwise by `log1p` exactly when its absolute sample
skewness strictly exceeds the threshold, and is otherwise unchanged;
boolean, nominal and categorical columns are never transformed.  With
threshold 1/2 the column `[1,1,1,1,1,1,1,1,1,100]` is transformed
elementwise while `[1,2,3,4,5]` is left unchanged. -/
theorem fix_skew_spec (f : ℚ → ℚ) (t : ℚ) (df : DataFrame) :
    fix_skew f df t = df.map (skewCol f t) ∧
    (∀ c : Column, c.dtype ≠ DType.numeric → skewCol f t c = c) ∧
    (∀ c : Column, c.dtype = DType.numeric →
        skewExceeds t (numCellsQ c.cells) = true →
        (skewCol f t c).cells = c.cells.map (fun cell =>
          match cell with
          | Cell.num q => Cell.num (f q)
          | x => x)) ∧
    (∀ c : Column, c.dtype = DType.numeric →
        skewExceeds t (numCellsQ c.cells) = false → skewCol f t c = c) ∧
    skewExceeds (1/2) (numCellsQ skewedCol.cells) = true ∧
    skewExceeds (1/2) (numCellsQ symCol.cells) = false ∧
    fix_skew f [skewedCol, symCol] (1/2)
      = [{ skewedCol with cells :=
            [Cell.num (f 1), Cell.num (f 1), Cell.num (f 1), Cell.num (f 1),
             Cell.num (f 1), Cell.num (f 1), Cell.num (f 1), Cell.num (f 1),
             Cell.num (f 1), Cell.num (f 100)] }, symCol] := by
  refine ⟨rfl, ?_, ?_, ?_, by decide, by decide, ?_⟩
  · intro c hc
    simp [skewCol, hc]
  · intro c hc hs
    simp [skewCol, hc, hs]
  · intro c hc hs
    simp [skewCol, hc, hs]
  · have h1 : skewExceeds (1/2) (numCellsQ skewedCol.cells) = true := by decide
    have h2 : skewExceeds (1/2) (numCellsQ symCol.cells) = false := by decide
    have e1 : skewCol f (1/2) skewedCol
        = { skewedCol with cells := skewedCol.cells.map (fun cell =>
            match cell with | Cell.num q => Cell.num (f q) | x => x) } := by
      unfold skewCol
      rw [if_pos (show skewedCol.dtype = DType.numeric from rfl), if_pos h1]
    have e2 : skewCol f (1/2) symCol = symCol := by
      unfold skewCol
      rw [if_pos (show symCol.dtype = DType.numeric from rfl),
          if_neg (fun hh => Bool.false_ne_true (h2 ▸ hh))]
    show skewCol f (1/2) skewedCol :: skewCol f (1/2) symCol :: [] = _
    rw [e1, e2]
    rfl

/-! ### Justification of the square-cleared skewness comparison

`skewExceeds` decides `abs(skew) > threshold` without square roots; the
following lemmas prove that, over the reals, the cleared form is equivalent
to the literal pandas formula `|n*sqrt(n-1)/(n-2) * m3/m2^1.5| > t`. -/

/-- Mean of a list of rationals (0 for the empty list, never used there). -/
def meanOf (xs : List ℚ) : ℚ := xs.sum / (xs.length : ℚ)

/-- Sum of squared deviations from the mean (pandas `m2`). -/
def m2Of (xs : List ℚ) : ℚ := (xs.map (fun x => (x - meanOf xs) ^ 2)).sum

/-- Sum of cubed deviations from the mean (pandas `m3`). -/
def m3Of (xs : List ℚ) : ℚ := (xs.map (fun x => (x - meanOf xs) ^ 3)).sum

theorem skewExceeds_eq (t : ℚ) (xs : List ℚ) :
    skewExceeds t xs =
      if xs.length < 3 then false
      else if m2Of xs = 0 then decide (0 > t)
      else if t < 0 then true
      else decide ((xs.length : ℚ) ^ 2 * ((xs.length : ℚ) - 1) * m3Of xs ^ 2
          > t ^ 2 * ((xs.length : ℚ) - 2) ^ 2 * m2Of xs ^ 3) := rfl

theorem m2Of_nonneg (xs : List ℚ) : 0 ≤ m2Of xs := by
  unfold m2Of
  refine List.sum_nonneg ?_
  intro x hx
  obtain ⟨y, hy, rfl⟩ := List.mem_map.mp hx
  exact sq_nonneg _

/-- For `t ≥ 0`, `b > 0` and `N ≥ 3`, comparing `t` with the absolute
skewness `|N*sqrt(N-1)/(N-2) * a/sqrt(b^3)|` is equivalent to the cleared
polynomial comparison. -/
theorem abs_skew_sq_iff (N a b t : ℝ) (hN : 3 ≤ N) (hb : 0 < b) (ht : 0 ≤ t) :
    (t < |N * Real.sqrt (N - 1) / (N - 2) * (a / Real.sqrt (b ^ 3))| ↔
      N ^ 2 * (N - 1) * a ^ 2 > t ^ 2 * (N - 2) ^ 2 * b ^ 3) := by
  have h1 : (0:ℝ) ≤ N - 1 := by linarith
  have hb3 : (0:ℝ) < b ^ 3 := by positivity
  have hden : (0:ℝ) < (N - 2) ^ 2 * b ^ 3 := by
    have h2 : (0:ℝ) < N - 2 := by linarith
    positivity
  have hEsq : (N * Real.sqrt (N - 1) / (N - 2) * (a / Real.sqrt (b ^ 3))) ^ 2
      = N ^ 2 * (N - 1) * a ^ 2 / ((N - 2) ^ 2 * b ^ 3) := by
    rw [mul_pow, div_pow, div_pow, mul_pow, Real.sq_sqrt h1, Real.sq_sqrt hb3.le,
        div_mul_div_comm]
  constructor
  · intro h
    have hsq : t ^ 2
        < (N * Real.sqrt (N - 1) / (N - 2) * (a / Real.sqrt (b ^ 3))) ^ 2 := by
      calc t ^ 2 < |N * Real.sqrt (N - 1) / (N - 2) * (a / Real.sqrt (b ^ 3))| ^ 2 :=
            pow_lt_pow_left₀ h ht (by norm_num)
        _ = _ := sq_abs _
    rw [hEsq, lt_div_iff₀ hden, ← mul_assoc] at hsq
    exact hsq
  · intro h
    have hsq : t ^ 2
        < (N * Real.sqrt (N - 1) / (N - 2) * (a / Real.sqrt (b ^ 3))) ^ 2 := by
      rw [hEsq, lt_div_iff₀ hden, ← mul_assoc]
      exact h
    refine lt_of_pow_lt_pow_left₀ 2 (abs_nonneg _) ?_
    rw [sq_abs]
    exact hsq

/-- The embedded decision procedure agrees with the literal pandas
skewness comparison over the reals whenever the latter is defined
(at least 3 values, nonzero variance) and the threshold is nonnegative. -/
theorem skewExceeds_iff_abs_skew (t : ℚ) (xs : List ℚ) (h3 : 3 ≤ xs.length)
    (hm2 : m2Of xs ≠ 0) (ht : 0 ≤ t) :
    (skewExceeds t xs = true ↔
      (t : ℝ) < |(xs.length : ℝ) * Real.sqrt ((xs.length : ℝ) - 1)
          / ((xs.length : ℝ) - 2)
          * ((m3Of xs : ℝ) / Real.sqrt ((m2Of xs : ℝ) ^ 3))|) := by
  have hm2pos : (0:ℚ) < m2Of xs := lt_of_le_of_ne (m2Of_nonneg xs) (Ne.symm hm2)
  have hN : (3:ℝ) ≤ (xs.length : ℝ) := by exact_mod_cast h3
  have hbR : (0:ℝ) < (m2Of xs : ℝ) := by exact_mod_cast hm2pos
  have htR : (0:ℝ) ≤ (t : ℝ) := by exact_mod_cast ht
  rw [skewExceeds_eq, if_neg (not_lt.mpr h3), if_neg hm2, if_neg (not_lt.mpr ht),
      decide_eq_true_eq,
      abs_skew_sq_iff (xs.length : ℝ) (m3Of xs : ℝ) (m2Of xs : ℝ) (t : ℝ) hN hbR htR]
  constructor <;> intro h
  · exact_mod_cast h
  · exact_mod_cast h

/-! ### TypeNormalizer helpers and claims C3, C5, C10 -/

theorem convertCol_name (c : Column) : (convertCol c).name = c.name := by
  unfold convertCol
  split_ifs <;> rfl

theorem convertCol_cells_length (c : Column) :
    (convertCol c).cells.length = c.cells.length := by
  unfold convertCol
  split_ifs <;> simp

theorem getCol_map_convertCol (df : DataFrame) (n : String) :
    getCol (df.map convertCol) n = (getCol df n).map convertCol :=
  getCol_map convertCol convertCol_name df n

theorem convertCol_month (c : Column) (h : c.name = "month") :
    convertCol c = { c with dtype := DType.cat monthLabels true,
                            cells := c.cells.map (toCatCell monthLabels) } := by
  unfold convertCol
  rw [if_pos h]

theorem convertCol_flag (c : Column) (h : c.name = "weekend" ∨ c.name = "revenue") :
    convertCol c = { c with dtype := DType.boolean,
                            cells := c.cells.map (fun x => Cell.bool (truthy x)) } := by
  have hm : ¬ c.name = "month" := by
    cases h with
    | inl h => rw [h]; decide
    | inr h => rw [h]; decide
  unfold convertCol
  rw [if_neg hm, if_pos h]

theorem convertCol_other (c : Column) (h1 : c.name ≠ "month")
    (h2 : c.name ≠ "weekend") (h3 : c.name ≠ "revenue") : convertCol c = c := by
  unfold convertCol
  rw [if_neg h1, if_neg (fun hh => hh.elim h2 h3)]

theorem convert_columns_eq (df : DataFrame) (m w r : Column)
    (hm : getCol df "month" = some m) (hw : getCol df "weekend" = some w)
    (hr : getCol df "revenue" = some r) :
    convert_columns df = some (df.map convertCol) := by
  unfold convert_columns
  rw [hm, hw, hr]

theorem nrows_map_convertCol (df : DataFrame) :
    nrows (df.map convertCol) = nrows df := by
  cases df with
  | nil => rfl
  | cons c cs => exact convertCol_cells_length c

/-- A raw `month` column holding the in-set label `Feb` and the out-of-set
value `Foo`. -/
def exMonthCol : Column := ⟨"month", DType.nominal, [Cell.str "Feb", Cell.str "Foo"]⟩

/-- A raw `weekend` column of numbers to be truthy-coerced. -/
def exWkdCol : Column := ⟨"weekend", DType.numeric, [Cell.num 0, Cell.num 3]⟩

/-- A raw `revenue` column of numbers to be truthy-coerced. -/
def exRevCol : Column := ⟨"revenue", DType.numeric, [Cell.num 1, Cell.num 0]⟩

/-- A dataset with `month`, `weekend` and `revenue` columns; its `month`
column holds the in-set label `Feb` and the out-of-set value `Foo`. -/
def exMonthDF : DataFrame :=
  [exMonthCol, exWkdCol, exRevCol, ⟨"region", DType.nominal, [Cell.str "A", Cell.str "B"]⟩]

/-- `exMonthDF` after `convert_columns`: `Foo` became missing, the flags
became booleans, `region` untouched. -/
def exMonthDF' : DataFrame :=
  [⟨"month", DType.cat monthLabels true, [Cell.str "Feb", Cell.na]⟩,
   ⟨"weekend", DType.boolean, [Cell.bool false, Cell.bool true]⟩,
   ⟨"revenue", DType.boolean, [Cell.bool true, Cell.bool false]⟩,
   ⟨"region", DType.nominal, [Cell.str "A", Cell.str "B"]⟩]

/-- C3: `convert_columns` makes `month` an ordered categorical whose label
order is exactly Jan..Dec, makes `weekend` and `revenue` boolean via truthy
coercion, touches no other column, and does not change the row count. -/
theorem convert_columns_spec (df df' : DataFrame) (h : convert_columns df = some df') :
    monthLabels = ["Jan", "Feb", "Mar", "Apr", "May", "Jun",
                   "Jul", "Aug", "Sep", "Oct", "Nov", "Dec"] ∧
    df' = df.map convertCol ∧
    (∀ m, getCol df "month" = some m →
        getCol df' "month" = some { m with
          dtype := DType.cat monthLabels true,
          cells := m.cells.map (toCatCell monthLabels) }) ∧
    (∀ w, getCol df "weekend" = some w →
        getCol df' "weekend" = some { w with
          dtype := DType.boolean,
          cells := w.cells.map (fun x => Cell.bool (truthy x)) }) ∧
    (∀ r, getCol df "revenue" = some r →
        getCol df' "revenue" = some { r with
          dtype := DType.boolean,
          cells := r.cells.map (fun x => Cell.bool (truthy x)) }) ∧
    (∀ n, n ≠ "month" → n ≠ "weekend" → n ≠ "revenue" →
        getCol df' n = getCol df n) ∧
    nrows df' = nrows df := by
  have hdf : df' = df.map convertCol := by
    unfold convert_columns at h
    cases hm : getCol df "month" with
    | none => rw [hm] at h; exact absurd h (by simp)
    | some m =>
      cases hw : getCol df "weekend" with
      | none => rw [hm, hw] at h; exact absurd h (by simp)
      | some w =>
        cases hr : getCol df "revenue" with
        | none => rw [hm, hw, hr] at h; exact absurd h (by simp)
        | some r =>
          rw [hm, hw, hr] at h
          exact (Option.some.injEq _ _ ▸ h).symm
  subst hdf
  refine ⟨rfl, rfl, ?_, ?_, ?_, ?_, nrows_map_convertCol df⟩
  · intro m hm
    rw [getCol_map_convertCol, hm, Option.map_some',
        convertCol_month m (getCol_name df "month" m hm)]
  · intro w hw
    rw [getCol_map_convertCol, hw, Option.map_some',
        convertCol_flag w (Or.inl (getCol_name df "weekend" w hw))]
  · intro r hr
    rw [getCol_map_convertCol, hr, Option.map_some',
        convertCol_flag r (Or.inr (getCol_name df "revenue" r hr))]
  · intro n h1 h2 h3
    rw [getCol_map_convertCol]
    cases hg : getCol df n with
    | none => rfl
    | some c =>
      rw [Option.map_some']
      have hn := getCol_name df n c hg
      rw [convertCol_other c (hn ▸ h1) (hn ▸ h2) (hn ▸ h3)]

/-- C3 witness: the theorem applied to `exMonthDF`. -/
theorem convert_columns_spec_witness :
    monthLabels = ["Jan", "Feb", "Mar", "Apr", "May", "Jun",
                   "Jul", "Aug", "Sep", "Oct", "Nov", "Dec"] ∧
    nrows exMonthDF' = nrows exMonthDF :=
  ⟨(convert_columns_spec exMonthDF exMonthDF' (by decide)).1,
   (convert_columns_spec exMonthDF exMonthDF' (by decide)).2.2.2.2.2.2⟩

/-- C5 counterexample: a `month` value outside the 12-label set does not
make `convert_columns` fail; on `exMonthDF` (whose month column holds
`Foo`) the conversion succeeds and `Foo` is silently replaced by a missing
value. -/
theorem convert_invalid_month_no_failure_cex :
    "Foo" ∉ monthLabels ∧
    getCol exMonthDF "month"
      = some ⟨"month", DType.nominal, [Cell.str "Feb", Cell.str "Foo"]⟩ ∧
    (convert_columns exMonthDF).isSome = true ∧
    convert_columns exMonthDF = some exMonthDF' ∧
    getCol exMonthDF' "month"
      = some ⟨"month", DType.cat monthLabels true, [Cell.str "Feb", Cell.na]⟩ := by
  refine ⟨by decide, by decide, by decide, by decide, by decide⟩

/-- C5 amended: on a dataset whose `month` column contains a value outside
the 12-label set, `convert_columns` does not fail: it succeeds (provided
the three columns exist) and maps every out-of-set value to a missing
entry. -/
theorem convert_out_of_set_no_error (df : DataFrame) (m w r : Column)
    (hm : getCol df "month" = some m) (hw : getCol df "weekend" = some w)
    (hr : getCol df "revenue" = some r) :
    (convert_columns df).isSome = true ∧
    convert_columns df = some (df.map convertCol) ∧
    (∀ s, s ∉ monthLabels → toCatCell monthLabels (Cell.str s) = Cell.na) := by
  refine ⟨?_, convert_columns_eq df m w r hm hw hr, ?_⟩
  · rw [convert_columns_eq df m w r hm hw hr]
    rfl
  · intro s hs
    simp only [toCatCell]
    rw [if_neg hs]

/-- C5 amended witness: the amended statement applied to `exMonthDF`. -/
theorem convert_out_of_set_no_error_witness :
    (convert_columns exMonthDF).isSome = true ∧
    convert_columns exMonthDF = some (exMonthDF.map convertCol) ∧
    (∀ s, s ∉ monthLabels → toCatCell monthLabels (Cell.str s) = Cell.na) :=
  convert_out_of_set_no_error exMonthDF exMonthCol exWkdCol exRevCol
    (by decide) (by decide) (by decide)

/-- C10: `convert_columns` never raises on an out-of-set `month` value:
whenever the three columns exist it returns a dataset, every out-of-set
month value is mapped to a missing entry of the resulting ordered
categorical column, and every in-set value is preserved. -/
theorem convert_month_out_of_set_to_nan (df : DataFrame) (m w r : Column)
    (hm : getCol df "month" = some m) (hw : getCol df "weekend" = some w)
    (hr : getCol df "revenue" = some r) :
    ∃ df', convert_columns df = some df' ∧
      getCol df' "month" = some { m with
        dtype := DType.cat monthLabels true,
        cells := m.cells.map (toCatCell monthLabels) } ∧
      (∀ s, s ∈ monthLabels → toCatCell monthLabels (Cell.str s) = Cell.str s) ∧
      (∀ s, s ∉ monthLabels → toCatCell monthLabels (Cell.str s) = Cell.na) ∧
      toCatCell monthLabels Cell.na = Cell.na := by
  refine ⟨df.map convertCol, convert_columns_eq df m w r hm hw hr, ?_, ?_, ?_, rfl⟩
  · rw [getCol_map_convertCol, hm, Option.map_some',
        convertCol_month m (getCol_name df "month" m hm)]
  · intro s hs
    simp only [toCatCell]
    rw [if_pos hs]
  · intro s hs
    simp only [toCatCell]
    rw [if_neg hs]

/-- C10 witness: the theorem applied to `exMonthDF`. -/
theorem convert_month_out_of_set_to_nan_witness :
    ∃ df', convert_columns exMonthDF = some df' ∧
      getCol df' "month" = some { exMonthCol with
        dtype := DType.cat monthLabels true,
        cells := exMonthCol.cells.map (toCatCell monthLabels) } ∧
      (∀ s, s ∈ monthLabels → toCatCell monthLabels (Cell.str s) = Cell.str s) ∧
      (∀ s, s ∉ monthLabels → toCatCell monthLabels (Cell.str s) = Cell.na) ∧
      toCatCell monthLabels Cell.na = Cell.na :=
  convert_month_out_of_set_to_nan exMonthDF exMonthCol exWkdCol exRevCol
    (by decide) (by decide) (by decide)

/-! ### NullImputer claims C6, C7 -/

/-- A dataset with a numeric column holding a missing value and a nominal
column. -/
def exImpDF : DataFrame :=
  [⟨"v", DType.numeric, [Cell.num 1, Cell.na, Cell.num 2]⟩,
   ⟨"s", DType.nominal, [Cell.str "a", Cell.str "b", Cell.str "c"]⟩]

/-- C6 counterexample: an unknown strategy string does not make
`impute_missing` fail; the call succeeds and returns the dataset unchanged,
its missing value still in place. -/
theorem impute_unknown_strategy_cex :
    "mode" ≠ "median" ∧ "mode" ≠ "mean" ∧
    impute_missing exImpDF "mode" = exImpDF ∧
    getCol exImpDF "v" = some ⟨"v", DType.numeric, [Cell.num 1, Cell.na, Cell.num 2]⟩ := by
  refine ⟨by decide, by decide, by decide, by decide⟩

/-- C6 amended: for every strategy string other than `median` and `mean`,
`impute_missing` silently does nothing: it returns the dataset unchanged
rather than failing. -/
theorem impute_unknown_strategy_noop (df : DataFrame) (s : String)
    (h1 : s ≠ "median") (h2 : s ≠ "mean") :
    impute_missing df s = df := by
  have hfun : ∀ c, imputeCol s c = c := by
    intro c
    unfold imputeCol
    by_cases hd : c.dtype = DType.numeric
    · rw [if_pos hd, if_neg h1, if_neg h2]
    · rw [if_neg hd]
  unfold impute_missing
  rw [show imputeCol s = id from funext hfun, List.map_id]

/-- C6 amended witness: the `most_frequent` strategy is silently ignored. -/
theorem impute_unknown_strategy_noop_witness :
    impute_missing exImpDF "most_frequent" = exImpDF :=
  impute_unknown_strategy_noop exImpDF "most_frequent" (by decide) (by decide)

/-- The statistic `impute_missing` fills with: for `median`, the 50th
percentile (pandas linear interpolation) of the column's non-missing
values; otherwise (only used for `mean`) their mean.  `none` when the
column has no non-missing value. -/
def imputeStat (strategy : String) (cells : List Cell) : Option ℚ :=
  if strategy = "median" then quantile (1/2) cells else meanQ (numCellsQ cells)

theorem imputeCol_name (strategy : String) (c : Column) :
    (imputeCol strategy c).name = c.name := by
  unfold imputeCol
  split_ifs <;> rfl

theorem fillCells_length (v : Option ℚ) (cells : List Cell) :
    (fillCells v cells).length = cells.length := by
  cases v with
  | none => rfl
  | some q => exact List.length_map _ _

theorem imputeCol_cells_length (strategy : String) (c : Column) :
    (imputeCol strategy c).cells.length = c.cells.length := by
  unfold imputeCol
  split_ifs <;> first | rfl | exact fillCells_length _ _

theorem quantileSorted_of_ne_nil (q : ℚ) (xs : List ℚ) (h : xs ≠ []) :
    ∃ v, quantileSorted q xs = some v := by
  cases xs with
  | nil => exact absurd rfl h
  | cons x xs => exact ⟨_, rfl⟩

theorem sortQ_ne_nil (xs : List ℚ) (h : xs ≠ []) : sortQ xs ≠ [] := by
  intro hs
  have := List.length_insertionSort (fun a b : ℚ => a ≤ b) xs
  rw [show List.insertionSort (fun a b : ℚ => a ≤ b) xs = sortQ xs from rfl, hs] at this
  exact h (List.length_eq_zero.mp this.symm)

/-- C7: with strategy `median` or `mean`, `impute_missing` touches only
numeric columns, leaves an all-missing numeric column unchanged, replaces
every missing entry of a numeric column with the chosen statistic of its
non-missing values while keeping every non-missing entry, and preserves
column names and the row count. -/
theorem impute_missing_spec (df : DataFrame) (strategy : String)
    (h : strategy = "median" ∨ strategy = "mean") :
    colNames (impute_missing df strategy) = colNames df ∧
    nrows (impute_missing df strategy) = nrows df ∧
    impute_missing df strategy = df.map (imputeCol strategy) ∧
    (∀ c : Column, c.dtype ≠ DType.numeric → imputeCol strategy c = c) ∧
    (∀ c : Column, c.dtype = DType.numeric → numCellsQ c.cells = [] →
        imputeCol strategy c = c) ∧
    (∀ c : Column, c.dtype = DType.numeric → numCellsQ c.cells ≠ [] →
        ∃ v, imputeStat strategy c.cells = some v ∧
          (imputeCol strategy c).cells = c.cells.map (fun cell =>
            match cell with
            | Cell.na => Cell.num v
            | x => x)) := by
  refine ⟨?_, ?_, rfl, ?_, ?_, ?_⟩
  · unfold impute_missing colNames
    rw [List.map_map]
    exact List.map_congr_left (fun c _ => imputeCol_name strategy c)
  · unfold impute_missing
    cases df with
    | nil => rfl
    | cons c cs => exact imputeCol_cells_length strategy c
  · intro c hc
    unfold imputeCol
    rw [if_neg hc]
  · intro c hc hnil
    unfold imputeCol
    rw [if_pos hc]
    have hq : quantile (1/2) c.cells = none := by
      unfold quantile
      rw [hnil]
      rfl
    have hmn : meanQ (numCellsQ c.cells) = none := by
      rw [hnil]
      rfl
    cases h with
    | inl h => rw [if_pos h, hq]; rfl
    | inr h =>
      rw [h]
      rw [if_neg (by decide), if_pos rfl, hmn]
      rfl
  · intro c hc hnil
    unfold imputeCol imputeStat
    rw [if_pos hc]
    cases h with
    | inl h =>
      rw [if_pos h, if_pos h]
      obtain ⟨v, hv⟩ := quantileSorted_of_ne_nil (1/2) (sortQ (numCellsQ c.cells))
        (sortQ_ne_nil _ hnil)
      refine ⟨v, hv, ?_⟩
      show (fillCells (quantile (1/2) c.cells) c.cells) = _
      unfold quantile
      rw [hv]
      rfl
    | inr h =>
      rw [h]
      rw [if_neg (by decide), if_pos rfl, if_neg (by decide)]
      cases hxs : numCellsQ c.cells with
      | nil => exact absurd hxs hnil
      | cons x xs =>
        exact ⟨(x :: xs).sum / ((x :: xs).length : ℚ), rfl, rfl⟩

/-- C7 witness: the theorem applied to `exImpDF` with strategy `median`. -/
theorem impute_missing_spec_witness :
    colNames (impute_missing exImpDF "median") = colNames exImpDF ∧
    nrows (impute_missing exImpDF "median") = nrows exImpDF :=
  ⟨(impute_missing_spec exImpDF "median" (Or.inl rfl)).1,
   (impute_missing_spec exImpDF "median" (Or.inl rfl)).2.1⟩

/-! ### Aggregator claims C4, C9 -/

/-- The spec's regional example: rows (A,10), (B,30), (A,5). -/
def exRegionDF : DataFrame :=
  [⟨"region", DType.nominal, [Cell.str "A", Cell.str "B", Cell.str "A"]⟩,
   ⟨"revenue", DType.numeric, [Cell.num 10, Cell.num 30, Cell.num 5]⟩]

/-- C4 counterexample: "ties broken by the original group-key order" is not
a guarantee of the program.  `sort_values` is called with the default
`kind='quicksort'`, which pandas documents as not stable, so on tied sums
the program's contract (`IsSortValuesDescResult`: a descending permutation)
admits more than one output.  Concretely, for regions A and B both summing
to 1 the groupby yields [(A,1), (B,1)], and both [(A,1), (B,1)] and the
tie-reversed [(B,1), (A,1)] satisfy the contract, so the claimed tie order
is not forced at this input. -/
theorem regional_tie_order_not_guaranteed_cex :
    groupSums [(Cell.str "A", Cell.num 1), (Cell.str "B", Cell.num 1)]
      = [("A", 1), ("B", 1)] ∧
    IsSortValuesDescResult [("A", 1), ("B", 1)] [("A", 1), ("B", 1)] ∧
    IsSortValuesDescResult [("A", 1), ("B", 1)] [("B", 1), ("A", 1)] ∧
    ([("B", 1), ("A", 1)] : List (String × ℚ)) ≠ [("A", 1), ("B", 1)] := by
  refine ⟨by decide, ⟨List.Perm.refl _, ?_⟩, ⟨List.Perm.swap _ _ _, ?_⟩, by decide⟩
  · simp [List.sorted_cons]
  · simp [List.sorted_cons]

/-- The contract output is unique when all sums are distinct: any
descending permutation of [(A,15), (B,30)] is [(B,30), (A,15)]. -/
theorem sorted_desc_pair_unique (res : List (String × ℚ))
    (hp : res.Perm [(("A" : String), (15 : ℚ)), ("B", 30)])
    (hs : List.Sorted (fun a b : String × ℚ => b.2 ≤ a.2) res) :
    res = [("B", 30), ("A", 15)] := by
  have hlen : res.length = 2 := hp.length_eq
  cases res with
  | nil => simp at hlen
  | cons x t =>
    cases t with
    | nil => simp at hlen
    | cons y t2 =>
      cases t2 with
      | cons z t3 => simp at hlen
      | nil =>
        have hx : x = (("A" : String), (15 : ℚ)) ∨ x = ("B", 30) := by
          have := hp.subset (List.mem_cons_self x [y])
          simpa using this
        have hy : y = (("A" : String), (15 : ℚ)) ∨ y = ("B", 30) := by
          have hy2 : y ∈ [x, y] := by simp
          have := hp.subset hy2
          simpa using this
        have hr : y.2 ≤ x.2 := (List.sorted_cons.mp hs).1 y (by simp)
        rcases hx with rfl | rfl <;> rcases hy with rfl | rfl
        · have : (("B" : String), (30 : ℚ))
              ∈ [(("A" : String), (15 : ℚ)), ("A", 15)] := hp.symm.subset (by simp)
          simp at this
        · norm_num at hr
        · rfl
        · have : (("A" : String), (15 : ℚ))
              ∈ [(("B" : String), (30 : ℚ)), ("B", 30)] := hp.symm.subset (by simp)
          simp at this

/-- C4 (amended): `regional_revenue_analysis` returns the per-region
revenue sums as a permutation of the groupby result sorted descending by
the summed value; the relative order of entries with equal sums is
unspecified (the default quicksort is not stable), but on the spec's
example rows the sums are distinct, the contract determines the output
uniquely, and the result is exactly [(B,30), (A,15)].  (The operation is a
pure function of the dataset, so it cannot mutate its input.) -/
theorem regional_revenue_sorted_spec (df : DataFrame) (ps : List (Cell × Cell))
    (h : pairsOf df "region" "revenue" = some ps) :
    (∀ k s, (k, s) ∈ groupSums ps →
        s = sumCells ((ps.filter (fun p => p.1 == Cell.str k)).map (fun p => p.2))) ∧
    (∃ res, regional_revenue_analysis df = some res ∧
        IsSortValuesDescResult (groupSums ps) res) ∧
    (∀ res, IsSortValuesDescResult
        (groupSums [(Cell.str "A", Cell.num 10), (Cell.str "B", Cell.num 30),
          (Cell.str "A", Cell.num 5)]) res → res = [("B", 30), ("A", 15)]) ∧
    regional_revenue_analysis exRegionDF = some [("B", 30), ("A", 15)] := by
  refine ⟨?_, ?_, ?_, by decide⟩
  · intro k s hks
    unfold groupSums at hks
    obtain ⟨k', hk', he⟩ := List.mem_map.mp hks
    cases he
    rfl
  · refine ⟨sortByValDesc (groupSums ps), ?_, perm_sortByValDesc _, sorted_sortByValDesc _⟩
    unfold regional_revenue_analysis
    rw [h]
    rfl
  · have hg : groupSums [(Cell.str "A", Cell.num 10), (Cell.str "B", Cell.num 30),
        (Cell.str "A", Cell.num 5)] = [("A", 15), ("B", 30)] := by decide
    rw [hg]
    intro res hres
    exact sorted_desc_pair_unique res hres.1 hres.2

/-- C4 witness: the theorem applied to the example dataset. -/
theorem regional_revenue_sorted_spec_witness :
    regional_revenue_analysis exRegionDF = some [("B", 30), ("A", 15)] :=
  (regional_revenue_sorted_spec exRegionDF
    ([(Cell.str "A", Cell.num 10), (Cell.str "B", Cell.num 30), (Cell.str "A", Cell.num 5)])
    (by decide)).2.2.2

theorem cell_bool_view (c : Cell) (b : Bool) :
    (match c with | Cell.bool b' => some b' | _ => none) = some b ↔ c = Cell.bool b := by
  cases c <;> simp

theorem mem_boolKeys (ps : List (Cell × Cell)) (b : Bool) :
    b ∈ boolKeys ps ↔ Cell.bool b ∈ ps.map (fun p => p.1) := by
  unfold boolKeys
  rw [List.mem_filterMap]
  constructor
  · rintro ⟨p, hp, hm⟩
    exact List.mem_map.mpr ⟨p, hp, (cell_bool_view p.1 b).mp hm⟩
  · intro hm
    obtain ⟨p, hp, he⟩ := List.mem_map.mp hm
    exact ⟨p, hp, (cell_bool_view p.1 b).mpr he⟩

theorem mem_orderedKeys (ks : List Bool) (b : Bool) :
    (b ∈ (if false ∈ ks then [false] else []) ++ (if true ∈ ks then [true] else []))
      ↔ b ∈ ks := by
  cases b <;> by_cases h1 : false ∈ ks <;> by_cases h2 : true ∈ ks <;>
    simp [h1, h2]

/-- A dataset in which every `weekend` value is `true`. -/
def exWeekendDF : DataFrame :=
  [⟨"weekend", DType.boolean, [Cell.bool true, Cell.bool true]⟩,
   ⟨"revenue", DType.numeric, [Cell.num 4, Cell.num 6]⟩]

/-- C9: `weekend_sales_analysis` returns the mean of `revenue` grouped by
the boolean `weekend` key, and an entry exists exactly for the boolean
values actually present; when only a single weekend value occurs the
result has exactly one entry, the mean over all rows (no phantom
categories).  On `exWeekendDF` (all weekends) it yields `[(true, 5)]`. -/
theorem weekend_sales_spec (df : DataFrame) (ps : List (Cell × Cell))
    (h : pairsOf df "weekend" "revenue" = some ps) :
    ∃ res : List (Bool × Option ℚ),
      weekend_sales_analysis df = some res ∧
      (∀ b m, (b, m) ∈ res →
         Cell.bool b ∈ ps.map (fun p => p.1) ∧
         m = meanCells ((ps.filter (fun p => p.1 == Cell.bool b)).map (fun p => p.2))) ∧
      (∀ b, Cell.bool b ∈ ps.map (fun p => p.1) → ∃ m, (b, m) ∈ res) ∧
      (∀ b0, ps ≠ [] → (∀ p ∈ ps, p.1 = Cell.bool b0) →
         res = [(b0, meanCells (ps.map (fun p => p.2)))]) ∧
      weekend_sales_analysis exWeekendDF = some [(true, some 5)] := by
  refine ⟨((if false ∈ (boolKeys ps).dedup then [false] else [])
      ++ (if true ∈ (boolKeys ps).dedup then [true] else [])).map
      (fun k => (k, meanCells ((ps.filter (fun p => p.1 == Cell.bool k)).map
        (fun p => p.2)))),
    ?_, ?_, ?_, ?_, by decide⟩
  · unfold weekend_sales_analysis
    rw [h]
    rfl
  · intro b m hm
    obtain ⟨k, hk, he⟩ := List.mem_map.mp hm
    injection he with hb hm2
    subst hb
    subst hm2
    have hb2 : k ∈ (boolKeys ps).dedup := (mem_orderedKeys _ k).mp hk
    exact ⟨(mem_boolKeys ps k).mp (List.mem_dedup.mp hb2), rfl⟩
  · intro b hb
    have h1 : b ∈ (boolKeys ps).dedup :=
      List.mem_dedup.mpr ((mem_boolKeys ps b).mpr hb)
    exact ⟨_, List.mem_map.mpr ⟨b, (mem_orderedKeys _ b).mpr h1, rfl⟩⟩
  · intro b0 hne hall
    have hb0 : b0 ∈ (boolKeys ps).dedup := by
      refine List.mem_dedup.mpr ((mem_boolKeys ps b0).mpr ?_)
      cases hps : ps with
      | nil => exact absurd hps hne
      | cons p ps' =>
        exact List.mem_map.mpr ⟨p, List.mem_cons_self p ps',
          hall p (by rw [hps]; exact List.mem_cons_self p ps')⟩
    have honly : ∀ b ∈ (boolKeys ps).dedup, b = b0 := by
      intro b hb
      obtain ⟨p, hp, he⟩ := List.mem_map.mp ((mem_boolKeys ps b).mp (List.mem_dedup.mp hb))
      have hpb := hall p hp
      rw [hpb] at he
      injection he with hbb
      exact hbb.symm
    have hfilter : ps.filter (fun p => p.1 == Cell.bool b0) = ps := by
      refine List.filter_eq_self.mpr (fun p hp => ?_)
      rw [hall p hp]
      exact beq_self_eq_true _
    have hkeys : (if false ∈ (boolKeys ps).dedup then [false] else [])
        ++ (if true ∈ (boolKeys ps).dedup then [true] else []) = [b0] := by
      cases b0 with
      | false =>
        have h2 : true ∉ (boolKeys ps).dedup := by
          intro hmem
          exact Bool.noConfusion (honly true hmem)
        rw [if_pos hb0, if_neg h2, List.append_nil]
      | true =>
        have h2 : false ∉ (boolKeys ps).dedup := by
          intro hmem
          exact Bool.noConfusion (honly false hmem)
        rw [if_pos hb0, if_neg h2, List.nil_append]
    rw [hkeys, List.map_cons, List.map_nil, hfilter]

/-- C9 witness: the theorem applied to `exWeekendDF`, where only the value
`true` occurs. -/
theorem weekend_sales_spec_witness :
    ∃ res : List (Bool × Option ℚ),
      weekend_sales_analysis exWeekendDF = some res ∧
      (∀ b m, (b, m) ∈ res →
         Cell.bool b ∈ [(Cell.bool true, Cell.num 4), (Cell.bool true, Cell.num 6)].map
           (fun p => p.1) ∧
         m = meanCells (([(Cell.bool true, Cell.num 4),
             (Cell.bool true, Cell.num 6)].filter
             (fun p => p.1 == Cell.bool b)).map (fun p => p.2))) ∧
      (∀ b, Cell.bool b ∈ [(Cell.bool true, Cell.num 4), (Cell.bool true, Cell.num 6)].map
          (fun p => p.1) → ∃ m, (b, m) ∈ res) ∧
      (∀ b0, ([(Cell.bool true, Cell.num 4), (Cell.bool true, Cell.num 6)]
            : List (Cell × Cell)) ≠ [] →
         (∀ p ∈ [(Cell.bool true, Cell.num 4), (Cell.bool true, Cell.num 6)],
            p.1 = Cell.bool b0) →
         res = [(b0, meanCells ([(Cell.bool true, Cell.num 4),
             (Cell.bool true, Cell.num 6)].map (fun p => p.2)))]) ∧
      weekend_sales_analysis exWeekendDF = some [(true, some 5)] :=
  weekend_sales_spec exWeekendDF
    [(Cell.bool true, Cell.num 4), (Cell.bool true, Cell.num 6)] (by decide)

end EDA
